import Mathlib

/-!
Shallow embedding of the 2D particle simulation
(src/2DParticleSimulation/2DParticleSimulation.cpp) over the real numbers.
Vectors are pairs of reals, raymath vector helpers are translated directly,
and the per-frame physics loop of main is modelled as a pure step function
on a list of balls.  float arithmetic is idealised as real arithmetic.
-/

/-- A raymath Vector2: two scalar components. -/
@[ext] structure Vector2 where
  x : ℝ
  y : ℝ

instance : Inhabited Vector2 := ⟨⟨0, 0⟩⟩

def Vector2Add (v1 v2 : Vector2) : Vector2 := ⟨v1.x + v2.x, v1.y + v2.y⟩

def Vector2Subtract (v1 v2 : Vector2) : Vector2 := ⟨v1.x - v2.x, v1.y - v2.y⟩

def Vector2Scale (v : Vector2) (scale : ℝ) : Vector2 := ⟨v.x * scale, v.y * scale⟩

noncomputable def Vector2Length (v : Vector2) : ℝ := Real.sqrt (v.x * v.x + v.y * v.y)

noncomputable def Vector2Distance (v1 v2 : Vector2) : ℝ :=
  Real.sqrt ((v1.x - v2.x) * (v1.x - v2.x) + (v1.y - v2.y) * (v1.y - v2.y))

def Vector2DotProduct (v1 v2 : Vector2) : ℝ := v1.x * v2.x + v1.y * v2.y

/-- raymath Vector2Normalize: divide by the length when it is positive,
otherwise return the zero vector. -/
noncomputable def Vector2Normalize (v : Vector2) : Vector2 :=
  let length := Real.sqrt (v.x * v.x + v.y * v.y)
  if length > 0 then ⟨v.x * (1 / length), v.y * (1 / length)⟩ else ⟨0, 0⟩

/-- Kahan-style compensated accumulator for Vector2 values
(struct KahanVector2Sum in the source). -/
@[ext] structure KahanVector2Sum where
  sum : Vector2
  c : Vector2

/-- The constructor of KahanVector2Sum: sum and compensation start at zero. -/
def KahanVector2Sum.mk0 : KahanVector2Sum := ⟨⟨0, 0⟩, ⟨0, 0⟩⟩

/-- KahanVector2Sum::Add, translated line by line. -/
def KahanVector2Sum.Add (k : KahanVector2Sum) (value : Vector2) : KahanVector2Sum :=
  let y := Vector2Subtract value k.c
  let t := Vector2Add k.sum y
  ⟨t, Vector2Subtract (Vector2Subtract t k.sum) y⟩

/-- KahanVector2Sum::GetSum. -/
def KahanVector2Sum.GetSum (k : KahanVector2Sum) : Vector2 := k.sum

/-- Feeding a list of values to a fresh KahanVector2Sum accumulator. -/
def kahanSum (l : List Vector2) : Vector2 :=
  (l.foldl KahanVector2Sum.Add KahanVector2Sum.mk0).GetSum

/-- const int ballCount = 800. -/
def ballCount : ℕ := 800

/-- const float minDistanceThreshold = 10.0f (the softening constant). -/
def minDistanceThreshold : ℝ := 10

/-- const float G = 1000.0f. -/
def G : ℝ := 1000

/-- RGBA color, cosmetic only. -/
structure Color where
  r : ℕ
  g : ℕ
  b : ℕ
  a : ℕ

/-- struct Ball. -/
structure Ball where
  position : Vector2
  velocity : Vector2
  acceleration : Vector2
  radius : ℝ
  mass : ℝ
  color : Color

instance : Inhabited Ball := ⟨⟨⟨0, 0⟩, ⟨0, 0⟩, ⟨0, 0⟩, 0, 0, ⟨0, 0, 0, 0⟩⟩⟩

/-- The divisor base of the gravitational force: center distance plus the
softening constant, as computed inside calculateGravitationalForce. -/
noncomputable def gravDistance (source target : Ball) : ℝ :=
  Vector2Length (Vector2Subtract target.position source.position) + minDistanceThreshold

/-- calculateGravitationalForce, translated line by line. -/
noncomputable def calculateGravitationalForce (source target : Ball) : Vector2 :=
  let direction := Vector2Subtract target.position source.position
  let distance := gravDistance source target
  let directionN := Vector2Normalize direction
  let forceMagnitude := (G * source.mass * target.mass) / (distance * distance)
  Vector2Scale directionN forceMagnitude

/-- checkBallCollision: centers closer than the sum of the radii. -/
noncomputable def checkBallCollision (ball1 ball2 : Ball) : Prop :=
  Vector2Distance ball1.position ball2.position < ball1.radius + ball2.radius

noncomputable instance (ball1 ball2 : Ball) : Decidable (checkBallCollision ball1 ball2) :=
  inferInstanceAs (Decidable (_ < _))

/-- resolveBallCollision, translated line by line; the two reference
parameters become a returned pair. -/
noncomputable def resolveBallCollision (ball1 ball2 : Ball) : Ball × Ball :=
  let normal := Vector2Normalize (Vector2Subtract ball2.position ball1.position)
  let relativeVelocity := Vector2Subtract ball2.velocity ball1.velocity
  let relativeSpeed := Vector2DotProduct relativeVelocity normal
  let bp :=
    if Vector2Distance ball1.position ball2.position < ball1.radius + ball2.radius then
      let direction := Vector2Subtract ball2.position ball1.position
      let distance := Vector2Length direction
      let overlap := (ball1.radius + ball2.radius) - distance
      let directionN := Vector2Normalize direction
      let totalMass := ball1.mass + ball2.mass
      let ratio1 := ball2.mass / totalMass
      let ratio2 := ball1.mass / totalMass
      ({ ball1 with position := Vector2Subtract ball1.position (Vector2Scale directionN (overlap * ratio1)) },
       { ball2 with position := Vector2Add ball2.position (Vector2Scale directionN (overlap * ratio2)) })
    else (ball1, ball2)
  if relativeSpeed < 0 then
    let impulse := (2 * relativeSpeed) / (ball1.mass + ball2.mass)
    ({ bp.1 with velocity := Vector2Add bp.1.velocity (Vector2Scale normal (impulse * ball2.mass)) },
     { bp.2 with velocity := Vector2Subtract bp.2.velocity (Vector2Scale normal (impulse * ball1.mass)) })
  else bp

/-- const int screenWidth = 1600. -/
def screenWidth : ℝ := 1600

/-- const int screenHeight = 900. -/
def screenHeight : ℝ := 900

/-- The BOUNDS block of the frame loop: two sequential if statements per
axis, y axis first, each reading the value the previous one may have
written. -/
noncomputable def applyBounds (ball : Ball) : Ball :=
  let y1 := if ball.position.y > screenHeight + ball.radius then -ball.radius else ball.position.y
  let y2 := if y1 < -ball.radius then screenHeight + ball.radius else y1
  let x1 := if ball.position.x > screenWidth + ball.radius then -ball.radius else ball.position.x
  let x2 := if x1 < -ball.radius then screenWidth + ball.radius else x1
  { ball with position := ⟨x2, y2⟩ }

/-- One iteration of the parallel-for body of the frame loop for the ball at
index i: when no drag is active, accumulate gravity from every other ball
(self excluded, which for distinct storage slots is index inequality, here
List.eraseIdx), integrate velocity and position through Kahan accumulators,
then apply the BOUNDS block.  When a drag is active the physics block is
skipped for every ball and only BOUNDS runs. -/
noncomputable def updateBall (deltaTime : ℝ) (isDragging : Bool) (balls : List Ball)
    (i : ℕ) : Ball :=
  let ball := balls.getD i default
  let ball1 :=
    if isDragging then ball
    else
      let terms := (balls.eraseIdx i).map fun otherBall =>
        Vector2Scale (calculateGravitationalForce ball otherBall) (1 / ball.mass)
      let acc := kahanSum terms
      let vel := kahanSum [ball.velocity, Vector2Scale acc deltaTime]
      let pos := kahanSum [ball.position, Vector2Scale vel deltaTime]
      { ball with position := pos, velocity := vel, acceleration := acc }
  applyBounds ball1

/-- One frame of the physics loop (the omp parallel for over all balls):
every ball is updated from the same start-of-frame snapshot. -/
noncomputable def simStep (deltaTime : ℝ) (isDragging : Bool) (balls : List Ball) :
    List Ball :=
  (List.range balls.length).map (updateBall deltaTime isDragging balls)

/-- The body of the inner collision loop for the pair (i, j): if the two
balls collide, resolve and write both back. -/
noncomputable def resolvePair (balls : List Ball) (i j : ℕ) : List Ball :=
  let bi := balls.getD i default
  let bj := balls.getD j default
  if checkBallCollision bi bj then
    let r := resolveBallCollision bi bj
    (balls.set i r.1).set j r.2
  else balls

/-- The inner loop of handleCollisions: j runs from i + 1 to balls.size - 1. -/
noncomputable def pairLoop (i : ℕ) (balls : List Ball) : List Ball :=
  (List.range' (i + 1) (balls.length - (i + 1))).foldl (fun bs j => resolvePair bs i j) balls

/-- One full pass of handleCollisions over all pairs: i runs over all
indices, j over the indices above i. -/
noncomputable def collisionPass (balls : List Ball) : List Ball :=
  (List.range balls.length).foldl (fun bs i => pairLoop i bs) balls

/-- handleCollisions: the pass is repeated for maxIterations = 10 fixed
iterations, no convergence check. -/
noncomputable def handleCollisions (balls : List Ball) : List Ball :=
  (List.range 10).foldl (fun bs _ => collisionPass bs) balls

/-- All index pairs (i, j) with i < j < n, in the visit order of the nested
loops of handleCollisions (lexicographic). -/
def allPairs (n : ℕ) : List (ℕ × ℕ) :=
  (List.range n).flatMap fun i => (List.range' (i + 1) (n - (i + 1))).map fun j => (i, j)

/-! ## Helper lemmas -/

lemma kahanAdd_zero_c (s v : Vector2) :
    KahanVector2Sum.Add ⟨s, ⟨0, 0⟩⟩ v = ⟨Vector2Add s v, ⟨0, 0⟩⟩ := by
  simp only [KahanVector2Sum.Add, Vector2Add, Vector2Subtract]
  ext <;> simp

lemma kahan_foldl_zero_c (l : List Vector2) (s : Vector2) :
    l.foldl KahanVector2Sum.Add ⟨s, ⟨0, 0⟩⟩ = ⟨l.foldl Vector2Add s, ⟨0, 0⟩⟩ := by
  induction l generalizing s with
  | nil => rfl
  | cons v l ih => rw [List.foldl_cons, kahanAdd_zero_c, ih, List.foldl_cons]

lemma vector2_foldl_add (l : List Vector2) (s : Vector2) :
    l.foldl Vector2Add s = ⟨s.x + (l.map Vector2.x).sum, s.y + (l.map Vector2.y).sum⟩ := by
  induction l generalizing s with
  | nil => simp
  | cons v l ih =>
      rw [List.foldl_cons, ih]
      simp [Vector2Add]
      constructor <;> ring

lemma kahanSum_eq (l : List Vector2) :
    kahanSum l = ⟨(l.map Vector2.x).sum, (l.map Vector2.y).sum⟩ := by
  unfold kahanSum KahanVector2Sum.mk0
  rw [kahan_foldl_zero_c, vector2_foldl_add]
  simp [KahanVector2Sum.GetSum]

/-! ## Claims -/

/-- Claim C7: the compensated vector summation starts from sum and
compensation zero, performs for each added value the updates
y = value - c, t = sum + y, c = (t - sum) - y, sum = t, and returns sum;
over exact real arithmetic the returned result is the plain mathematical
sum of the added terms, componentwise. -/
theorem C7_kahan_sum_exact (l : List Vector2) :
    kahanSum l = l.foldl Vector2Add ⟨0, 0⟩ ∧
    kahanSum l = ⟨(l.map Vector2.x).sum, (l.map Vector2.y).sum⟩ := by
  constructor
  · rw [kahanSum_eq, vector2_foldl_add]
    simp
  · exact kahanSum_eq l

/-- Claim C9: the divisor of the gravitational force magnitude is the
square of the center distance plus the softening constant 10; it is at
least 100 and in particular never zero, so the division cannot divide by
zero. -/
theorem C9_grav_divisor_safe (source target : Ball) :
    100 ≤ gravDistance source target * gravDistance source target ∧
    gravDistance source target * gravDistance source target ≠ 0 := by
  have hlen : 0 ≤ Vector2Length (Vector2Subtract target.position source.position) :=
    Real.sqrt_nonneg _
  have hd : 10 ≤ gravDistance source target := by
    unfold gravDistance minDistanceThreshold
    linarith
  constructor
  · nlinarith
  · nlinarith

/-- Unbundled characterization of resolveBallCollision: the positional
correction touches only the positions, the impulse only the velocities,
and the two branch conditions are independent. -/
lemma resolveBallCollision_eq (ball1 ball2 : Ball) :
    resolveBallCollision ball1 ball2 =
    (let normal := Vector2Normalize (Vector2Subtract ball2.position ball1.position)
     let relativeSpeed := Vector2DotProduct (Vector2Subtract ball2.velocity ball1.velocity) normal
     let impulse := (2 * relativeSpeed) / (ball1.mass + ball2.mass)
     let overlap := (ball1.radius + ball2.radius) - Vector2Length (Vector2Subtract ball2.position ball1.position)
     let collide := Vector2Distance ball1.position ball2.position < ball1.radius + ball2.radius
     let p1 := if collide then
         Vector2Subtract ball1.position (Vector2Scale normal (overlap * (ball2.mass / (ball1.mass + ball2.mass))))
       else ball1.position
     let p2 := if collide then
         Vector2Add ball2.position (Vector2Scale normal (overlap * (ball1.mass / (ball1.mass + ball2.mass))))
       else ball2.position
     let v1 := if relativeSpeed < 0 then
         Vector2Add ball1.velocity (Vector2Scale normal (impulse * ball2.mass))
       else ball1.velocity
     let v2 := if relativeSpeed < 0 then
         Vector2Subtract ball2.velocity (Vector2Scale normal (impulse * ball1.mass))
       else ball2.velocity
     ({ ball1 with position := p1, velocity := v1 },
      { ball2 with position := p2, velocity := v2 })) := by
  unfold resolveBallCollision
  by_cases h1 : Vector2Distance ball1.position ball2.position < ball1.radius + ball2.radius <;>
    by_cases h2 : Vector2DotProduct (Vector2Subtract ball2.velocity ball1.velocity)
        (Vector2Normalize (Vector2Subtract ball2.position ball1.position)) < 0 <;>
    simp [h1, h2]

lemma sqrt_thirtysix : Real.sqrt 36 = 6 := by
  rw [show (36 : ℝ) = 6 ^ 2 by norm_num]
  exact Real.sqrt_sq (by norm_num)

/-- A concrete ball used to instantiate proved claims. -/
def ballA : Ball :=
  { position := ⟨0, 0⟩, velocity := ⟨1, 0⟩, acceleration := ⟨0, 0⟩,
    radius := 5, mass := 2, color := ⟨0, 0, 0, 0⟩ }

/-- A second concrete ball, overlapping ballA. -/
def ballB : Ball :=
  { position := ⟨6, 0⟩, velocity := ⟨-1, 0⟩, acceleration := ⟨0, 0⟩,
    radius := 5, mass := 3, color := ⟨0, 0, 0, 0⟩ }

lemma ballA_ballB_collide : checkBallCollision ballA ballB := by
  unfold checkBallCollision Vector2Distance ballA ballB
  norm_num
  rw [sqrt_thirtysix]
  norm_num

/-- Claim C3: for a colliding pair with positive masses, one call of the
collision resolution leaves the total momentum m1 v1 + m2 v2 unchanged,
exactly, in the ideal real arithmetic of this model. -/
theorem C3_momentum_conserved (ball1 ball2 : Ball)
    (h1 : 0 < ball1.mass) (h2 : 0 < ball2.mass)
    (hc : checkBallCollision ball1 ball2) :
    Vector2Add
        (Vector2Scale (resolveBallCollision ball1 ball2).1.velocity
          (resolveBallCollision ball1 ball2).1.mass)
        (Vector2Scale (resolveBallCollision ball1 ball2).2.velocity
          (resolveBallCollision ball1 ball2).2.mass) =
      Vector2Add (Vector2Scale ball1.velocity ball1.mass)
        (Vector2Scale ball2.velocity ball2.mass) := by
  rw [resolveBallCollision_eq]
  dsimp only
  by_cases hrs : Vector2DotProduct (Vector2Subtract ball2.velocity ball1.velocity)
      (Vector2Normalize (Vector2Subtract ball2.position ball1.position)) < 0
  · rw [if_pos hrs, if_pos hrs]
    ext <;> simp [Vector2Add, Vector2Scale, Vector2Subtract] <;> ring
  · rw [if_neg hrs, if_neg hrs]

/-- Witness for C3 at a concrete colliding pair. -/
theorem C3_momentum_conserved_witness :
    0 < ballA.mass ∧ 0 < ballB.mass ∧ checkBallCollision ballA ballB ∧
    Vector2Add
        (Vector2Scale (resolveBallCollision ballA ballB).1.velocity
          (resolveBallCollision ballA ballB).1.mass)
        (Vector2Scale (resolveBallCollision ballA ballB).2.velocity
          (resolveBallCollision ballA ballB).2.mass) =
      Vector2Add (Vector2Scale ballA.velocity ballA.mass)
        (Vector2Scale ballB.velocity ballB.mass) :=
  ⟨by norm_num [ballA], by norm_num [ballB], ballA_ballB_collide,
    C3_momentum_conserved ballA ballB (by norm_num [ballA]) (by norm_num [ballB])
      ballA_ballB_collide⟩

lemma normalize_zero_or_unit (v : Vector2) :
    Vector2Normalize v = ⟨0, 0⟩ ∨
      Vector2DotProduct (Vector2Normalize v) (Vector2Normalize v) = 1 := by
  unfold Vector2Normalize Vector2DotProduct
  by_cases h : Real.sqrt (v.x * v.x + v.y * v.y) > 0
  · right
    simp only [if_pos h]
    have hs : Real.sqrt (v.x * v.x + v.y * v.y) * Real.sqrt (v.x * v.x + v.y * v.y) =
        v.x * v.x + v.y * v.y :=
      Real.mul_self_sqrt (add_nonneg (mul_self_nonneg v.x) (mul_self_nonneg v.y))
    have hne : Real.sqrt (v.x * v.x + v.y * v.y) ≠ 0 := ne_of_gt h
    field_simp
    linarith [hs]
  · left
    simp only [if_neg h]

lemma add_scale_ne (v n : Vector2) (c : ℝ) (hc : c ≠ 0) (hn : n ≠ ⟨0, 0⟩) :
    Vector2Add v (Vector2Scale n c) ≠ v := by
  intro h
  apply hn
  have hx := congrArg Vector2.x h
  have hy := congrArg Vector2.y h
  simp only [Vector2Add, Vector2Scale] at hx hy
  have hx0 : n.x * c = 0 := by linarith
  have hy0 : n.y * c = 0 := by linarith
  ext
  · exact (mul_eq_zero.mp hx0).resolve_right hc
  · exact (mul_eq_zero.mp hy0).resolve_right hc

lemma sub_scale_ne (v n : Vector2) (c : ℝ) (hc : c ≠ 0) (hn : n ≠ ⟨0, 0⟩) :
    Vector2Subtract v (Vector2Scale n c) ≠ v := by
  intro h
  apply hn
  have hx := congrArg Vector2.x h
  have hy := congrArg Vector2.y h
  simp only [Vector2Subtract, Vector2Scale] at hx hy
  have hx0 : n.x * c = 0 := by linarith
  have hy0 : n.y * c = 0 := by linarith
  ext
  · exact (mul_eq_zero.mp hx0).resolve_right hc
  · exact (mul_eq_zero.mp hy0).resolve_right hc

lemma impulse_reflects (v1 v2 n : Vector2) (m1 m2 imp : ℝ)
    (hunit : Vector2DotProduct n n = 1)
    (himp : imp * (m1 + m2) = 2 * Vector2DotProduct (Vector2Subtract v2 v1) n) :
    Vector2DotProduct
        (Vector2Subtract (Vector2Subtract v2 (Vector2Scale n (imp * m1)))
          (Vector2Add v1 (Vector2Scale n (imp * m2)))) n =
      -(Vector2DotProduct (Vector2Subtract v2 v1) n) := by
  simp only [Vector2DotProduct, Vector2Subtract, Vector2Add, Vector2Scale] at hunit himp ⊢
  linear_combination (-(n.x * n.x + n.y * n.y)) * himp +
    (-2 * ((v2.x - v1.x) * n.x + (v2.y - v1.y) * n.y)) * hunit

/-- Claim C6: the impulse response changes the velocities exactly when the
two balls are approaching (relative velocity projected on the collision
normal strictly negative); in that case ball1 velocity moves by
impulse * normal * mass2, ball2 velocity by the negation of
impulse * normal * mass1, both velocities really change, and afterwards the
projected relative speed is the exact opposite, so the balls separate;
otherwise both velocities are left unchanged. -/
theorem C6_impulse_iff_approaching (ball1 ball2 : Ball) (normal : Vector2)
    (relativeSpeed impulse : ℝ)
    (h1 : 0 < ball1.mass) (h2 : 0 < ball2.mass)
    (hn : normal = Vector2Normalize (Vector2Subtract ball2.position ball1.position))
    (hrs : relativeSpeed =
      Vector2DotProduct (Vector2Subtract ball2.velocity ball1.velocity) normal)
    (himpulse : impulse = (2 * relativeSpeed) / (ball1.mass + ball2.mass)) :
    (relativeSpeed < 0 →
      (resolveBallCollision ball1 ball2).1.velocity =
          Vector2Add ball1.velocity (Vector2Scale normal (impulse * ball2.mass)) ∧
      (resolveBallCollision ball1 ball2).2.velocity =
          Vector2Subtract ball2.velocity (Vector2Scale normal (impulse * ball1.mass)) ∧
      (resolveBallCollision ball1 ball2).1.velocity ≠ ball1.velocity ∧
      (resolveBallCollision ball1 ball2).2.velocity ≠ ball2.velocity ∧
      Vector2DotProduct
          (Vector2Subtract (resolveBallCollision ball1 ball2).2.velocity
            (resolveBallCollision ball1 ball2).1.velocity) normal = -relativeSpeed) ∧
    (¬ relativeSpeed < 0 →
      (resolveBallCollision ball1 ball2).1.velocity = ball1.velocity ∧
      (resolveBallCollision ball1 ball2).2.velocity = ball2.velocity) := by
  subst hn hrs himpulse
  rw [resolveBallCollision_eq]
  dsimp only
  constructor
  · intro hlt
    rw [if_pos hlt, if_pos hlt]
    have hmass : 0 < ball1.mass + ball2.mass := by linarith
    have hnz : Vector2Normalize (Vector2Subtract ball2.position ball1.position) ≠ ⟨0, 0⟩ := by
      intro hz
      rw [hz] at hlt
      simp [Vector2DotProduct] at hlt
    have hunit : Vector2DotProduct
        (Vector2Normalize (Vector2Subtract ball2.position ball1.position))
        (Vector2Normalize (Vector2Subtract ball2.position ball1.position)) = 1 :=
      (normalize_zero_or_unit _).resolve_left hnz
    have himp_neg : (2 * Vector2DotProduct (Vector2Subtract ball2.velocity ball1.velocity)
        (Vector2Normalize (Vector2Subtract ball2.position ball1.position))) /
        (ball1.mass + ball2.mass) < 0 :=
      div_neg_of_neg_of_pos (by linarith) hmass
    refine ⟨rfl, rfl, ?_, ?_, ?_⟩
    · exact add_scale_ne _ _ _ (mul_ne_zero (ne_of_lt himp_neg) (ne_of_gt h2)) hnz
    · exact sub_scale_ne _ _ _ (mul_ne_zero (ne_of_lt himp_neg) (ne_of_gt h1)) hnz
    · exact impulse_reflects ball1.velocity ball2.velocity _ ball1.mass ball2.mass _
        hunit (div_mul_cancel₀ _ (ne_of_gt hmass))
  · intro hge
    rw [if_neg hge, if_neg hge]
    exact ⟨rfl, rfl⟩

/-- Witness for C6 at a concrete pair with positive masses. -/
theorem C6_impulse_iff_approaching_witness :
    0 < ballA.mass ∧ 0 < ballB.mass ∧
    ((Vector2DotProduct (Vector2Subtract ballB.velocity ballA.velocity)
        (Vector2Normalize (Vector2Subtract ballB.position ballA.position)) < 0 →
      (resolveBallCollision ballA ballB).1.velocity =
          Vector2Add ballA.velocity
            (Vector2Scale (Vector2Normalize (Vector2Subtract ballB.position ballA.position))
              ((2 * Vector2DotProduct (Vector2Subtract ballB.velocity ballA.velocity)
                  (Vector2Normalize (Vector2Subtract ballB.position ballA.position))) /
                  (ballA.mass + ballB.mass) * ballB.mass)) ∧
      (resolveBallCollision ballA ballB).2.velocity =
          Vector2Subtract ballB.velocity
            (Vector2Scale (Vector2Normalize (Vector2Subtract ballB.position ballA.position))
              ((2 * Vector2DotProduct (Vector2Subtract ballB.velocity ballA.velocity)
                  (Vector2Normalize (Vector2Subtract ballB.position ballA.position))) /
                  (ballA.mass + ballB.mass) * ballA.mass)) ∧
      (resolveBallCollision ballA ballB).1.velocity ≠ ballA.velocity ∧
      (resolveBallCollision ballA ballB).2.velocity ≠ ballB.velocity ∧
      Vector2DotProduct
          (Vector2Subtract (resolveBallCollision ballA ballB).2.velocity
            (resolveBallCollision ballA ballB).1.velocity)
          (Vector2Normalize (Vector2Subtract ballB.position ballA.position)) =
        -(Vector2DotProduct (Vector2Subtract ballB.velocity ballA.velocity)
            (Vector2Normalize (Vector2Subtract ballB.position ballA.position)))) ∧
    (¬ Vector2DotProduct (Vector2Subtract ballB.velocity ballA.velocity)
        (Vector2Normalize (Vector2Subtract ballB.position ballA.position)) < 0 →
      (resolveBallCollision ballA ballB).1.velocity = ballA.velocity ∧
      (resolveBallCollision ballA ballB).2.velocity = ballB.velocity)) :=
  ⟨by norm_num [ballA], by norm_num [ballB],
    C6_impulse_iff_approaching ballA ballB _ _ _
      (by norm_num [ballA]) (by norm_num [ballB]) rfl rfl rfl⟩

lemma length_pos_of_ne_zero (v : Vector2) (h : v ≠ ⟨0, 0⟩) : 0 < Vector2Length v := by
  unfold Vector2Length
  apply Real.sqrt_pos.mpr
  by_contra hle
  push_neg at hle
  apply h
  have hx : v.x = 0 := by nlinarith [mul_self_nonneg v.x, mul_self_nonneg v.y]
  have hy : v.y = 0 := by nlinarith [mul_self_nonneg v.x, mul_self_nonneg v.y]
  ext <;> assumption

lemma dist_eq_length (a b : Vector2) : Vector2Distance a b = Vector2Length (Vector2Subtract b a) := by
  unfold Vector2Distance Vector2Length Vector2Subtract
  dsimp
  congr 1
  ring

lemma length_scale (v : Vector2) (c : ℝ) :
    Vector2Length (Vector2Scale v c) = |c| * Vector2Length v := by
  unfold Vector2Length Vector2Scale
  dsimp
  rw [show v.x * c * (v.x * c) + v.y * c * (v.y * c) = (c * c) * (v.x * v.x + v.y * v.y) by ring,
    Real.sqrt_mul (mul_self_nonneg c), Real.sqrt_mul_self_eq_abs]

lemma scale_scale (v : Vector2) (c d : ℝ) :
    Vector2Scale (Vector2Scale v c) d = Vector2Scale v (c * d) := by
  simp only [Vector2Scale]
  ext <;> dsimp <;> ring

lemma sub_of_corrected (p1 p2 n : Vector2) (a b : ℝ) :
    Vector2Subtract (Vector2Add p2 (Vector2Scale n a))
        (Vector2Subtract p1 (Vector2Scale n b)) =
      Vector2Add (Vector2Subtract p2 p1) (Vector2Scale n (a + b)) := by
  simp only [Vector2Subtract, Vector2Add, Vector2Scale]
  ext <;> dsimp <;> ring

lemma add_scale_self (u : Vector2) (c : ℝ) :
    Vector2Add u (Vector2Scale u c) = Vector2Scale u (1 + c) := by
  simp only [Vector2Add, Vector2Scale]
  ext <;> dsimp <;> ring

lemma normalize_eq_scale (v : Vector2) (h : 0 < Vector2Length v) :
    Vector2Normalize v = Vector2Scale v (1 / Vector2Length v) := by
  unfold Vector2Normalize Vector2Scale Vector2Length at *
  rw [if_pos h]

/-- Claim C5 (amended): for an overlapping pair with positive masses and
DISTINCT centers, the positional correction computes
overlap = (r1 + r2) - distance and pushes the balls apart along the
normalized center-to-center direction, ball1 by overlap * m2 / (m1 + m2)
and ball2 by overlap * m1 / (m1 + m2); with zero velocities the call leaves
the velocities alone and one single invocation brings the center distance
to exactly r1 + r2, that is, the overlap drops from positive to exactly
zero and the pair is no longer detected as colliding. -/
theorem C5_positional_correction (ball1 ball2 : Ball) (direction : Vector2)
    (dist overlap : ℝ)
    (h1 : 0 < ball1.mass) (h2 : 0 < ball2.mass)
    (hd : direction = Vector2Subtract ball2.position ball1.position)
    (hne : ball1.position ≠ ball2.position)
    (hdist : dist = Vector2Length direction)
    (hoverlap : overlap = (ball1.radius + ball2.radius) - dist)
    (hcol : checkBallCollision ball1 ball2)
    (hv1 : ball1.velocity = ⟨0, 0⟩) (hv2 : ball2.velocity = ⟨0, 0⟩) :
    0 < overlap ∧
    (resolveBallCollision ball1 ball2).1.position =
      Vector2Subtract ball1.position (Vector2Scale (Vector2Normalize direction)
        (overlap * (ball2.mass / (ball1.mass + ball2.mass)))) ∧
    (resolveBallCollision ball1 ball2).2.position =
      Vector2Add ball2.position (Vector2Scale (Vector2Normalize direction)
        (overlap * (ball1.mass / (ball1.mass + ball2.mass)))) ∧
    (resolveBallCollision ball1 ball2).1.velocity = ball1.velocity ∧
    (resolveBallCollision ball1 ball2).2.velocity = ball2.velocity ∧
    Vector2Distance (resolveBallCollision ball1 ball2).1.position
        (resolveBallCollision ball1 ball2).2.position =
      ball1.radius + ball2.radius ∧
    ¬ checkBallCollision (resolveBallCollision ball1 ball2).1
        (resolveBallCollision ball1 ball2).2 := by
  subst hd hdist hoverlap
  have hu : Vector2Subtract ball2.position ball1.position ≠ ⟨0, 0⟩ := by
    intro h
    apply hne
    have hx := congrArg Vector2.x h
    have hy := congrArg Vector2.y h
    simp only [Vector2Subtract] at hx hy
    ext <;> linarith
  have hL : 0 < Vector2Length (Vector2Subtract ball2.position ball1.position) :=
    length_pos_of_ne_zero _ hu
  have hdistL : Vector2Distance ball1.position ball2.position =
      Vector2Length (Vector2Subtract ball2.position ball1.position) := dist_eq_length _ _
  have hcollt : Vector2Distance ball1.position ball2.position <
      ball1.radius + ball2.radius := hcol
  have hcol' : Vector2Length (Vector2Subtract ball2.position ball1.position) <
      ball1.radius + ball2.radius := by rw [← hdistL]; exact hcollt
  have hov : 0 < (ball1.radius + ball2.radius) -
      Vector2Length (Vector2Subtract ball2.position ball1.position) := by linarith
  have hrs0 : Vector2DotProduct (Vector2Subtract ball2.velocity ball1.velocity)
      (Vector2Normalize (Vector2Subtract ball2.position ball1.position)) = 0 := by
    rw [hv1, hv2]
    simp [Vector2DotProduct, Vector2Subtract]
  have hnlt : ¬ Vector2DotProduct (Vector2Subtract ball2.velocity ball1.velocity)
      (Vector2Normalize (Vector2Subtract ball2.position ball1.position)) < 0 := by
    rw [hrs0]
    exact lt_irrefl 0
  have hs : ball1.mass + ball2.mass ≠ 0 := by linarith
  have hLne : Vector2Length (Vector2Subtract ball2.position ball1.position) ≠ 0 :=
    ne_of_gt hL
  have hrsum : 0 < ball1.radius + ball2.radius := by
    have := Real.sqrt_nonneg
      ((Vector2Subtract ball2.position ball1.position).x *
          (Vector2Subtract ball2.position ball1.position).x +
        (Vector2Subtract ball2.position ball1.position).y *
          (Vector2Subtract ball2.position ball1.position).y)
    have hLnn : 0 ≤ Vector2Length (Vector2Subtract ball2.position ball1.position) := this
    linarith
  have hdistnew : Vector2Distance
      (Vector2Subtract ball1.position
        (Vector2Scale (Vector2Normalize (Vector2Subtract ball2.position ball1.position))
          (((ball1.radius + ball2.radius) -
              Vector2Length (Vector2Subtract ball2.position ball1.position)) *
            (ball2.mass / (ball1.mass + ball2.mass)))))
      (Vector2Add ball2.position
        (Vector2Scale (Vector2Normalize (Vector2Subtract ball2.position ball1.position))
          (((ball1.radius + ball2.radius) -
              Vector2Length (Vector2Subtract ball2.position ball1.position)) *
            (ball1.mass / (ball1.mass + ball2.mass))))) =
      ball1.radius + ball2.radius := by
    rw [dist_eq_length, sub_of_corrected, normalize_eq_scale _ hL, scale_scale]
    rw [show 1 / Vector2Length (Vector2Subtract ball2.position ball1.position) *
        (((ball1.radius + ball2.radius) -
            Vector2Length (Vector2Subtract ball2.position ball1.position)) *
          (ball1.mass / (ball1.mass + ball2.mass)) +
          ((ball1.radius + ball2.radius) -
            Vector2Length (Vector2Subtract ball2.position ball1.position)) *
          (ball2.mass / (ball1.mass + ball2.mass))) =
        ((ball1.radius + ball2.radius) -
          Vector2Length (Vector2Subtract ball2.position ball1.position)) /
          Vector2Length (Vector2Subtract ball2.position ball1.position) by
      field_simp
      ring]
    rw [add_scale_self, length_scale]
    rw [abs_of_pos (by
      have : 0 < (ball1.radius + ball2.radius) /
          Vector2Length (Vector2Subtract ball2.position ball1.position) := div_pos hrsum hL
      have heq : 1 + ((ball1.radius + ball2.radius) -
          Vector2Length (Vector2Subtract ball2.position ball1.position)) /
          Vector2Length (Vector2Subtract ball2.position ball1.position) =
          (ball1.radius + ball2.radius) /
            Vector2Length (Vector2Subtract ball2.position ball1.position) := by
        field_simp
      rw [heq]
      exact this)]
    have heq : 1 + ((ball1.radius + ball2.radius) -
        Vector2Length (Vector2Subtract ball2.position ball1.position)) /
        Vector2Length (Vector2Subtract ball2.position ball1.position) =
        (ball1.radius + ball2.radius) /
          Vector2Length (Vector2Subtract ball2.position ball1.position) := by
      field_simp
    rw [heq]
    field_simp
  rw [resolveBallCollision_eq]
  dsimp only
  rw [if_pos hcollt, if_pos hcollt, if_neg hnlt, if_neg hnlt]
  refine ⟨hov, rfl, rfl, rfl, rfl, hdistnew, ?_⟩
  intro hcl
  have hlt2 := hcl
  unfold checkBallCollision at hlt2
  dsimp at hlt2
  rw [hdistnew] at hlt2
  exact lt_irrefl _ hlt2

lemma vecDist_self (p : Vector2) : Vector2Distance p p = 0 := by
  unfold Vector2Distance
  simp

lemma sub_self_vec (p : Vector2) : Vector2Subtract p p = ⟨0, 0⟩ := by
  unfold Vector2Subtract
  ext <;> simp

lemma normalize_zero_vec : Vector2Normalize ⟨0, 0⟩ = ⟨0, 0⟩ := by
  unfold Vector2Normalize
  norm_num

/-- A concrete ball with zero velocity; two copies of it form an
overlapping pair with coincident centers. -/
def ballE : Ball :=
  { position := ⟨100, 100⟩, velocity := ⟨0, 0⟩, acceleration := ⟨0, 0⟩,
    radius := 5, mass := 5, color := ⟨0, 0, 0, 0⟩ }

/-- Counterexample to C5 as stated: two overlapping balls with positive
masses whose centers coincide.  The overlap is 10 > 0, yet the positional
correction displaces neither ball (the normalized direction is the zero
vector), so repeated invocation never decreases the overlap. -/
theorem C5_counterexample :
    0 < ballE.mass ∧
    checkBallCollision ballE ballE ∧
    0 < (ballE.radius + ballE.radius) - Vector2Distance ballE.position ballE.position ∧
    (resolveBallCollision ballE ballE).1.position = ballE.position ∧
    (resolveBallCollision ballE ballE).2.position = ballE.position ∧
    (resolveBallCollision ballE ballE).1.velocity = ballE.velocity ∧
    (resolveBallCollision ballE ballE).2.velocity = ballE.velocity := by
  have hd0 : Vector2Distance ballE.position ballE.position = 0 := vecDist_self _
  have hcol : Vector2Distance ballE.position ballE.position < ballE.radius + ballE.radius := by
    rw [hd0]
    norm_num [ballE]
  have hrs0 : Vector2DotProduct (Vector2Subtract ballE.velocity ballE.velocity)
      (Vector2Normalize (Vector2Subtract ballE.position ballE.position)) = 0 := by
    rw [sub_self_vec]
    simp [Vector2DotProduct]
  have hnlt : ¬ Vector2DotProduct (Vector2Subtract ballE.velocity ballE.velocity)
      (Vector2Normalize (Vector2Subtract ballE.position ballE.position)) < 0 := by
    rw [hrs0]
    exact lt_irrefl 0
  refine ⟨by norm_num [ballE], hcol, by rw [hd0]; norm_num [ballE], ?_, ?_, ?_, ?_⟩
  · rw [resolveBallCollision_eq]
    dsimp only
    rw [if_pos hcol, sub_self_vec, normalize_zero_vec]
    simp [Vector2Scale, Vector2Subtract]
  · rw [resolveBallCollision_eq]
    dsimp only
    rw [if_pos hcol, sub_self_vec, normalize_zero_vec]
    simp [Vector2Scale, Vector2Add]
  · rw [resolveBallCollision_eq]
    dsimp only
    rw [if_neg hnlt]
  · rw [resolveBallCollision_eq]
    dsimp only
    rw [if_neg hnlt]

/-- A concrete zero-velocity ball. -/
def ballD1 : Ball :=
  { position := ⟨0, 0⟩, velocity := ⟨0, 0⟩, acceleration := ⟨0, 0⟩,
    radius := 5, mass := 5, color := ⟨0, 0, 0, 0⟩ }

/-- A second concrete zero-velocity ball, overlapping ballD1 with a
distinct center. -/
def ballD2 : Ball :=
  { position := ⟨6, 0⟩, velocity := ⟨0, 0⟩, acceleration := ⟨0, 0⟩,
    radius := 5, mass := 5, color := ⟨0, 0, 0, 0⟩ }

lemma ballD_collide : checkBallCollision ballD1 ballD2 := by
  unfold checkBallCollision Vector2Distance ballD1 ballD2
  norm_num
  rw [sqrt_thirtysix]
  norm_num

lemma ballD_ne : ballD1.position ≠ ballD2.position := by
  unfold ballD1 ballD2
  intro h
  have hx := congrArg Vector2.x h
  norm_num at hx

/-- Witness for the amended C5 at a concrete overlapping pair with
distinct centers and zero velocities. -/
theorem C5_positional_correction_witness :
    0 < ballD1.mass ∧ 0 < ballD2.mass ∧ ballD1.position ≠ ballD2.position ∧
    checkBallCollision ballD1 ballD2 ∧
    ballD1.velocity = ⟨0, 0⟩ ∧ ballD2.velocity = ⟨0, 0⟩ ∧
    (0 < (ballD1.radius + ballD2.radius) -
        Vector2Length (Vector2Subtract ballD2.position ballD1.position) ∧
      (resolveBallCollision ballD1 ballD2).1.position =
        Vector2Subtract ballD1.position
          (Vector2Scale (Vector2Normalize (Vector2Subtract ballD2.position ballD1.position))
            (((ballD1.radius + ballD2.radius) -
                Vector2Length (Vector2Subtract ballD2.position ballD1.position)) *
              (ballD2.mass / (ballD1.mass + ballD2.mass)))) ∧
      (resolveBallCollision ballD1 ballD2).2.position =
        Vector2Add ballD2.position
          (Vector2Scale (Vector2Normalize (Vector2Subtract ballD2.position ballD1.position))
            (((ballD1.radius + ballD2.radius) -
                Vector2Length (Vector2Subtract ballD2.position ballD1.position)) *
              (ballD1.mass / (ballD1.mass + ballD2.mass)))) ∧
      (resolveBallCollision ballD1 ballD2).1.velocity = ballD1.velocity ∧
      (resolveBallCollision ballD1 ballD2).2.velocity = ballD2.velocity ∧
      Vector2Distance (resolveBallCollision ballD1 ballD2).1.position
          (resolveBallCollision ballD1 ballD2).2.position =
        ballD1.radius + ballD2.radius ∧
      ¬ checkBallCollision (resolveBallCollision ballD1 ballD2).1
          (resolveBallCollision ballD1 ballD2).2) :=
  ⟨by norm_num [ballD1], by norm_num [ballD2], ballD_ne, ballD_collide, rfl, rfl,
    C5_positional_correction ballD1 ballD2 _ _ _
      (by norm_num [ballD1]) (by norm_num [ballD2]) rfl ballD_ne rfl rfl
      ballD_collide rfl rfl⟩

/-- Per-axis wrap, written to the amended claim words: a coordinate
STRICTLY above maxCoord + radius wraps to -radius, a coordinate strictly
below -radius wraps to maxCoord + radius, anything else (both edge values
included) is left unchanged. -/
noncomputable def wrapAxis (maxCoord radius v : ℝ) : ℝ :=
  if v > maxCoord + radius then -radius
  else if v < -radius then maxCoord + radius
  else v

/-- Claim C4 (amended): the BOUNDS block wraps each axis independently:
strictly beyond viewport max + radius goes to -radius, strictly below
-radius goes to viewport max + radius, and the edge values themselves,
viewport max + radius and -radius, are left in place (the comparisons are
strict); velocity and acceleration are untouched. -/
theorem C4_bounds_wrap (ball : Ball) :
    (applyBounds ball).position.x = wrapAxis screenWidth ball.radius ball.position.x ∧
    (applyBounds ball).position.y = wrapAxis screenHeight ball.radius ball.position.y ∧
    (applyBounds ball).velocity = ball.velocity ∧
    (applyBounds ball).acceleration = ball.acceleration := by
  refine ⟨?_, ?_, rfl, rfl⟩
  · unfold applyBounds wrapAxis
    dsimp only
    by_cases hgt : ball.position.x > screenWidth + ball.radius
    · rw [if_pos hgt, if_pos hgt, if_neg (lt_irrefl (-ball.radius))]
    · rw [if_neg hgt, if_neg hgt]
  · unfold applyBounds wrapAxis
    dsimp only
    by_cases hgt : ball.position.y > screenHeight + ball.radius
    · rw [if_pos hgt, if_pos hgt, if_neg (lt_irrefl (-ball.radius))]
    · rw [if_neg hgt, if_neg hgt]

/-- A concrete ball sitting exactly at x = screenWidth + radius. -/
def ballF : Ball :=
  { position := ⟨1605, 0⟩, velocity := ⟨0, 0⟩, acceleration := ⟨0, 0⟩,
    radius := 5, mass := 5, color := ⟨0, 0, 0, 0⟩ }

/-- Counterexample to C4 as stated: a ball with position.x exactly equal
to viewportWidth + radius is NOT wrapped to -radius; the comparison is
strict, so the BOUNDS block leaves it at 1605. -/
theorem C4_counterexample :
    ballF.position.x = screenWidth + ballF.radius ∧
    (applyBounds ballF).position.x = ballF.position.x ∧
    (applyBounds ballF).position.x ≠ -ballF.radius := by
  refine ⟨by norm_num [ballF, screenWidth], ?_, ?_⟩ <;>
    norm_num [applyBounds, ballF, screenWidth, screenHeight]

lemma simStep_getD (deltaTime : ℝ) (isDragging : Bool) (balls : List Ball) (i : ℕ)
    (hi : i < balls.length) :
    (simStep deltaTime isDragging balls).getD i default =
      updateBall deltaTime isDragging balls i := by
  unfold simStep
  rw [List.getD_eq_getElem?_getD, List.getElem?_map, List.getElem?_range hi]
  rfl

lemma applyBounds_velocity (ball : Ball) : (applyBounds ball).velocity = ball.velocity := rfl

lemma applyBounds_acceleration (ball : Ball) :
    (applyBounds ball).acceleration = ball.acceleration := rfl

/-- Claim C2: with no drag active, the acceleration of ball i after one
frame is the compensated sum, over every other ball (self excluded by
slot), of the gravitational force scaled by 1 / own mass; over exact real
arithmetic this is the plain vector sum of those terms; the force follows
the inverse square law with softening constant 10 and G = 1000; for a
singleton world the acceleration is exactly (0, 0). -/
theorem C2_acceleration_sum (deltaTime : ℝ) (balls : List Ball) (i : ℕ)
    (hi : i < balls.length) :
    ((simStep deltaTime false balls).getD i default).acceleration =
      kahanSum ((balls.eraseIdx i).map fun otherBall =>
        Vector2Scale (calculateGravitationalForce (balls.getD i default) otherBall)
          (1 / (balls.getD i default).mass)) ∧
    ((simStep deltaTime false balls).getD i default).acceleration =
      ((balls.eraseIdx i).map fun otherBall =>
        Vector2Scale (calculateGravitationalForce (balls.getD i default) otherBall)
          (1 / (balls.getD i default).mass)).foldl Vector2Add ⟨0, 0⟩ ∧
    (∀ source target : Ball, calculateGravitationalForce source target =
      Vector2Scale (Vector2Normalize (Vector2Subtract target.position source.position))
        (G * source.mass * target.mass /
          ((Vector2Length (Vector2Subtract target.position source.position) +
              minDistanceThreshold) *
            (Vector2Length (Vector2Subtract target.position source.position) +
              minDistanceThreshold)))) ∧
    (∀ b : Ball, ((simStep deltaTime false [b]).getD 0 default).acceleration = ⟨0, 0⟩) := by
  have hbase : ((simStep deltaTime false balls).getD i default).acceleration =
      kahanSum ((balls.eraseIdx i).map fun otherBall =>
        Vector2Scale (calculateGravitationalForce (balls.getD i default) otherBall)
          (1 / (balls.getD i default).mass)) := by
    rw [simStep_getD deltaTime false balls i hi]
    simp only [updateBall, Bool.false_eq_true, if_false]
    rfl
  refine ⟨hbase, ?_, ?_, ?_⟩
  · rw [hbase, kahanSum_eq, vector2_foldl_add]
    ext <;> simp
  · intro source target
    rfl
  · intro b
    rw [simStep_getD deltaTime false [b] 0 (by norm_num)]
    simp only [updateBall, Bool.false_eq_true, if_false]
    rfl

/-- Witness for C2 at a concrete two-ball world. -/
theorem C2_acceleration_sum_witness :
    0 < [ballA, ballB].length ∧
    (((simStep 1 false [ballA, ballB]).getD 0 default).acceleration =
        kahanSum (([ballA, ballB].eraseIdx 0).map fun otherBall =>
          Vector2Scale (calculateGravitationalForce ([ballA, ballB].getD 0 default) otherBall)
            (1 / ([ballA, ballB].getD 0 default).mass)) ∧
      ((simStep 1 false [ballA, ballB]).getD 0 default).acceleration =
        (([ballA, ballB].eraseIdx 0).map fun otherBall =>
          Vector2Scale (calculateGravitationalForce ([ballA, ballB].getD 0 default) otherBall)
            (1 / ([ballA, ballB].getD 0 default).mass)).foldl Vector2Add ⟨0, 0⟩ ∧
      (∀ source target : Ball, calculateGravitationalForce source target =
        Vector2Scale (Vector2Normalize (Vector2Subtract target.position source.position))
          (G * source.mass * target.mass /
            ((Vector2Length (Vector2Subtract target.position source.position) +
                minDistanceThreshold) *
              (Vector2Length (Vector2Subtract target.position source.position) +
                minDistanceThreshold)))) ∧
      (∀ b : Ball, ((simStep 1 false [b]).getD 0 default).acceleration = ⟨0, 0⟩)) :=
  ⟨by norm_num, C2_acceleration_sum 1 [ballA, ballB] 0 (by norm_num)⟩

/-- Claim C1 (amended): while a drag is active, the per-frame physics loop
suspends gravity accumulation and integration for EVERY ball, not only the
dragged one: each ball keeps its velocity and acceleration and only the
BOUNDS wrap is applied to its position. -/
theorem C1_drag_suspends_all_physics (deltaTime : ℝ) (balls : List Ball) (i : ℕ)
    (hi : i < balls.length) :
    (simStep deltaTime true balls).getD i default = applyBounds (balls.getD i default) ∧
    ((simStep deltaTime true balls).getD i default).velocity =
      (balls.getD i default).velocity ∧
    ((simStep deltaTime true balls).getD i default).acceleration =
      (balls.getD i default).acceleration := by
  have h := simStep_getD deltaTime true balls i hi
  have hupd : updateBall deltaTime true balls i = applyBounds (balls.getD i default) := by
    simp only [updateBall, eq_self_iff_true, if_true]
  rw [h, hupd]
  exact ⟨rfl, rfl, rfl⟩

/-- Witness for the amended C1 at a concrete two-ball world. -/
theorem C1_drag_suspends_all_physics_witness :
    1 < [ballA, ballB].length ∧
    ((simStep 1 true [ballA, ballB]).getD 1 default =
        applyBounds ([ballA, ballB].getD 1 default) ∧
      ((simStep 1 true [ballA, ballB]).getD 1 default).velocity =
        ([ballA, ballB].getD 1 default).velocity ∧
      ((simStep 1 true [ballA, ballB]).getD 1 default).acceleration =
        ([ballA, ballB].getD 1 default).acceleration) :=
  ⟨by norm_num, C1_drag_suspends_all_physics 1 [ballA, ballB] 1 (by norm_num)⟩

lemma kahanSum_singleton (v : Vector2) : kahanSum [v] = v := by
  rw [kahanSum_eq]
  simp

lemma gravForce_ballB_ballA : calculateGravitationalForce ballB ballA = ⟨-(375 / 16), 0⟩ := by
  have hsub : Vector2Subtract ballA.position ballB.position = ⟨-6, 0⟩ := by
    unfold ballA ballB Vector2Subtract
    norm_num
  have hlen : Vector2Length (⟨-6, 0⟩ : Vector2) = 6 := by
    unfold Vector2Length
    rw [show ((-6 : ℝ) * (-6) + 0 * 0) = 36 by norm_num, sqrt_thirtysix]
  have hnorm : Vector2Normalize (⟨-6, 0⟩ : Vector2) = ⟨-1, 0⟩ := by
    unfold Vector2Normalize
    rw [show ((-6 : ℝ) * (-6) + 0 * 0) = 36 by norm_num, sqrt_thirtysix]
    rw [if_pos (by norm_num)]
    norm_num
  unfold calculateGravitationalForce gravDistance
  rw [hsub, hlen]
  dsimp only
  rw [hnorm]
  unfold Vector2Scale G minDistanceThreshold ballA ballB
  norm_num

/-- Counterexample to C1 as stated: with a drag active (one ball dragged),
the OTHER, non-dragged ball also has its physics suspended: its
acceleration and velocity are left unchanged by the frame, even though the
gravitational accumulation the claim promises for it is nonzero. -/
theorem C1_counterexample :
    ((simStep 1 true [ballA, ballB]).getD 1 default).acceleration = ballB.acceleration ∧
    ((simStep 1 true [ballA, ballB]).getD 1 default).velocity = ballB.velocity ∧
    kahanSum (([ballA, ballB].eraseIdx 1).map fun otherBall =>
        Vector2Scale (calculateGravitationalForce ([ballA, ballB].getD 1 default) otherBall)
          (1 / ([ballA, ballB].getD 1 default).mass)) ≠ ballB.acceleration := by
  have h := simStep_getD 1 true [ballA, ballB] 1 (by norm_num)
  have hupd : updateBall 1 true [ballA, ballB] 1 =
      applyBounds ([ballA, ballB].getD 1 default) := by
    simp only [updateBall, eq_self_iff_true, if_true]
  refine ⟨by rw [h, hupd]; rfl, by rw [h, hupd]; rfl, ?_⟩
  have hterms : ([ballA, ballB].eraseIdx 1).map (fun otherBall =>
      Vector2Scale (calculateGravitationalForce ([ballA, ballB].getD 1 default) otherBall)
        (1 / ([ballA, ballB].getD 1 default).mass)) =
      [Vector2Scale (calculateGravitationalForce ballB ballA) (1 / ballB.mass)] := rfl
  rw [hterms, kahanSum_singleton, gravForce_ballB_ballA]
  intro hcontra
  have hx := congrArg Vector2.x hcontra
  unfold Vector2Scale ballB at hx
  norm_num at hx

lemma resolvePair_length (balls : List Ball) (i j : ℕ) :
    (resolvePair balls i j).length = balls.length := by
  unfold resolvePair
  dsimp only
  split
  · simp
  · rfl

lemma foldl_resolvePair_length (l : List ℕ) (i : ℕ) (bs : List Ball) :
    (l.foldl (fun s j => resolvePair s i j) bs).length = bs.length := by
  induction l generalizing bs with
  | nil => rfl
  | cons j l ih => rw [List.foldl_cons, ih, resolvePair_length]

lemma pairLoop_length (i : ℕ) (bs : List Ball) : (pairLoop i bs).length = bs.length := by
  unfold pairLoop
  exact foldl_resolvePair_length _ _ _

lemma pairLoop_eq_pairs (i : ℕ) (bs : List Ball) :
    pairLoop i bs =
      ((List.range' (i + 1) (bs.length - (i + 1))).map fun j => (i, j)).foldl
        (fun s p => resolvePair s p.1 p.2) bs := by
  unfold pairLoop
  rw [List.foldl_map]

lemma foldl_flatMap {α β γ : Type} (l : List α) (f : α → List β) (g : γ → β → γ) (s : γ) :
    (l.flatMap f).foldl g s = l.foldl (fun t a => (f a).foldl g t) s := by
  induction l generalizing s with
  | nil => rfl
  | cons a l ih => rw [List.flatMap_cons, List.foldl_append, List.foldl_cons, ih]

lemma outer_fold_eq (l : List ℕ) (n : ℕ) :
    ∀ bs : List Ball, bs.length = n →
      l.foldl (fun s i => pairLoop i s) bs =
        l.foldl (fun t i =>
          ((List.range' (i + 1) (n - (i + 1))).map fun j => (i, j)).foldl
            (fun s p => resolvePair s p.1 p.2) t) bs := by
  induction l with
  | nil => intro bs _; rfl
  | cons i l ih =>
      intro bs h
      rw [List.foldl_cons, List.foldl_cons]
      have h1 : ((List.range' (i + 1) (n - (i + 1))).map fun j => (i, j)).foldl
          (fun s p => resolvePair s p.1 p.2) bs = pairLoop i bs := by
        rw [pairLoop_eq_pairs, h]
      rw [h1]
      exact ih (pairLoop i bs) (by rw [pairLoop_length, h])

lemma collisionPass_eq_pairs (balls : List Ball) :
    collisionPass balls =
      (allPairs balls.length).foldl (fun bs p => resolvePair bs p.1 p.2) balls := by
  unfold collisionPass allPairs
  rw [foldl_flatMap]
  exact outer_fold_eq (List.range balls.length) balls.length balls rfl

lemma foldl_const_iterate (f : List Ball → List Ball) (k : ℕ) (s : List Ball) :
    (List.range k).foldl (fun t _ => f t) s = f^[k] s := by
  induction k with
  | zero => rfl
  | succ k ih =>
      rw [List.range_succ, List.foldl_append, ih, List.foldl_cons, List.foldl_nil,
        Function.iterate_succ_apply']

lemma allPairs_mem (n : ℕ) (p : ℕ × ℕ) : p ∈ allPairs n ↔ p.1 < p.2 ∧ p.2 < n := by
  unfold allPairs
  rw [List.mem_flatMap]
  constructor
  · rintro ⟨i, hi, hp⟩
    rw [List.mem_map] at hp
    obtain ⟨j, hj, hpe⟩ := hp
    rw [List.mem_range] at hi
    rw [List.mem_range'_1] at hj
    rw [← hpe]
    dsimp
    omega
  · rintro ⟨h1, h2⟩
    refine ⟨p.1, ?_, ?_⟩
    · rw [List.mem_range]
      omega
    · rw [List.mem_map]
      refine ⟨p.2, ?_, rfl⟩
      rw [List.mem_range'_1]
      omega

/-- Claim C8: collision is detected exactly when the center distance is
strictly below the sum of the radii; handleCollisions runs exactly 10 fixed
iterations of a full pass with no convergence check; one pass folds over
exactly the index pairs (i, j) with i < j < n in lexicographic visit order,
and for each visited pair it applies the resolution exactly when the pair
is detected as colliding, writing both balls back. -/
theorem C8_collision_loop_structure (balls : List Ball) :
    (∀ ball1 ball2 : Ball, checkBallCollision ball1 ball2 ↔
      Vector2Distance ball1.position ball2.position < ball1.radius + ball2.radius) ∧
    handleCollisions balls = collisionPass^[10] balls ∧
    collisionPass balls =
      (allPairs balls.length).foldl (fun bs p => resolvePair bs p.1 p.2) balls ∧
    (∀ p : ℕ × ℕ, p ∈ allPairs balls.length ↔ p.1 < p.2 ∧ p.2 < balls.length) ∧
    (∀ bs : List Ball, ∀ i j : ℕ, resolvePair bs i j =
      if checkBallCollision (bs.getD i default) (bs.getD j default) then
        (bs.set i (resolveBallCollision (bs.getD i default) (bs.getD j default)).1).set j
          (resolveBallCollision (bs.getD i default) (bs.getD j default)).2
      else bs) := by
  refine ⟨fun ball1 ball2 => Iff.rfl, ?_, collisionPass_eq_pairs balls,
    allPairs_mem balls.length, fun bs i j => rfl⟩
  unfold handleCollisions
  exact foldl_const_iterate collisionPass 10 balls
